import Mathlib

/-!
# Verification of llm-subtrans core components

Shallow embedding of selected parts of the llm-subtrans repository
(subtitle data model and editor, WebVTT file handler, format registry,
project orchestration, OpenAI reasoning client input conversion, and the
SimpleColor helper), together with proofs and refutations of the frozen
specification claims.

Python integers are modelled as `Int` (or `Nat` where the source only
produces non-negative values), Python `timedelta` timestamps as total
milliseconds (`Nat`), optional values as `Option`, raised exceptions as
`Except`, and Python dictionaries as insertion-ordered association lists.
-/

set_option autoImplicit false

namespace LlmSubtrans

/-! ## SimpleColor (src/PySubtitle/Helpers/SimpleColor.py)

`SimpleColor.__init__` clamps each channel into [0, 255]; `to_hex`
produces `#RRGGBBAA` (uppercase, two digits per channel, from Python
`f"#{self.r:02X}..."`); `from_hex` strips leading `#`, appends `FF` for
6-digit strings, rejects other lengths than 8, and parses four hex pairs
with `int(_, 16)`.
-/

structure SimpleColor where
  r : Int
  g : Int
  b : Int
  a : Int
  deriving DecidableEq, Repr

/-- Python `max(0, min(255, x))` from `SimpleColor.__init__`. -/
def clampChannel (x : Int) : Int := max 0 (min 255 x)

/-- `SimpleColor.__init__(r, g, b, a)`: clamps every channel into [0, 255]. -/
def SimpleColor.init (r g b a : Int) : SimpleColor :=
  ⟨clampChannel r, clampChannel g, clampChannel b, clampChannel a⟩

/-- Uppercase hex digit for a value < 16 (as produced by Python `"%X"`). -/
def hexDigitU (n : Nat) : Char :=
  if n < 10 then Char.ofNat (48 + n) else Char.ofNat (55 + n)

/-- Python `f"{v:02X}"` for a channel value in [0, 255]: exactly two
uppercase hex digits. -/
def hexPair (v : Int) : List Char :=
  [hexDigitU (v.toNat / 16 % 16), hexDigitU (v.toNat % 16)]

/-- `SimpleColor.to_hex`: `f"#{r:02X}{g:02X}{b:02X}{a:02X}"`. -/
def SimpleColor.to_hex (c : SimpleColor) : String :=
  ⟨'#' :: (hexPair c.r ++ hexPair c.g ++ hexPair c.b ++ hexPair c.a)⟩

/-- Value of a single hex digit as accepted by Python `int(_, 16)`
(digits, uppercase and lowercase letters). -/
def hexVal (c : Char) : Option Nat :=
  if 48 ≤ c.toNat ∧ c.toNat ≤ 57 then some (c.toNat - 48)
  else if 65 ≤ c.toNat ∧ c.toNat ≤ 70 then some (c.toNat - 55)
  else if 97 ≤ c.toNat ∧ c.toNat ≤ 102 then some (c.toNat - 87)
  else none

/-- Python `int(s, 16)` on a two-character slice. -/
def parseHexPair : List Char → Option Nat
  | [c1, c2] => do
      let v1 ← hexVal c1
      let v2 ← hexVal c2
      pure (16 * v1 + v2)
  | _ => none

/-- `SimpleColor.from_hex`: strips leading `#` characters, appends `FF`
to 6-character strings, raises `ValueError` for lengths other than 8,
then builds the colour from the four hex pairs (the constructor clamps). -/
def SimpleColor.from_hex (s : String) : Except String SimpleColor :=
  let cs := s.data.dropWhile (· = '#')
  let cs := if cs.length = 6 then cs ++ ['F', 'F'] else cs
  match cs with
  | [c1, c2, c3, c4, c5, c6, c7, c8] =>
    match parseHexPair [c1, c2], parseHexPair [c3, c4],
          parseHexPair [c5, c6], parseHexPair [c7, c8] with
    | some r, some g, some b, some a =>
        .ok (SimpleColor.init (Int.ofNat r) (Int.ofNat g) (Int.ofNat b) (Int.ofNat a))
    | _, _, _, _ => .error "invalid literal for int with base 16"
  | _ => .error "Invalid hex color format"

lemma clampChannel_nonneg (x : Int) : 0 ≤ clampChannel x := le_max_left 0 _

lemma clampChannel_le (x : Int) : clampChannel x ≤ 255 := by
  unfold clampChannel
  rcases le_or_lt x 255 with h | h
  · exact max_le (by norm_num) (min_le_left 255 x)
  · exact max_le (by norm_num) (min_le_left 255 x)

lemma hexVal_hexDigitU {d : Nat} (h : d < 16) : hexVal (hexDigitU d) = some d := by
  interval_cases d <;> rfl

lemma parseHexPair_hexPair {v : Int} (h0 : 0 ≤ v) (h1 : v ≤ 255) :
    parseHexPair (hexPair v) = some v.toNat := by
  have hv : v.toNat < 256 := by omega
  have h16 : v.toNat / 16 % 16 = v.toNat / 16 := Nat.mod_eq_of_lt (by omega)
  have hd1 : v.toNat / 16 < 16 := by omega
  have hd2 : v.toNat % 16 < 16 := Nat.mod_lt _ (by norm_num)
  simp only [parseHexPair, hexPair, h16, hexVal_hexDigitU hd1, hexVal_hexDigitU hd2,
    Option.bind_eq_bind, Option.some_bind]
  congr 1
  omega

lemma hexDigitU_ne_hash {d : Nat} (h : d < 16) : hexDigitU d ≠ '#' := by
  interval_cases d <;> decide

lemma hexVal_isSome_hexDigitU {d : Nat} (h : d < 16) : (hexVal (hexDigitU d)).isSome := by
  rw [hexVal_hexDigitU h]; rfl

lemma clampChannel_of_range {x : Int} (h0 : 0 ≤ x) (h1 : x ≤ 255) : clampChannel x = x := by
  unfold clampChannel
  rw [min_eq_right h1, max_eq_right h0]

lemma from_hex_to_hex {c : SimpleColor}
    (hr0 : 0 ≤ c.r) (hr1 : c.r ≤ 255) (hg0 : 0 ≤ c.g) (hg1 : c.g ≤ 255)
    (hb0 : 0 ≤ c.b) (hb1 : c.b ≤ 255) (ha0 : 0 ≤ c.a) (ha1 : c.a ≤ 255) :
    SimpleColor.from_hex c.to_hex = .ok c := by
  have hno : (hexDigitU (c.r.toNat / 16 % 16) = '#') = False := by
    simp [hexDigitU_ne_hash (Nat.mod_lt _ (by norm_num))]
  have e1 : parseHexPair [hexDigitU (c.r.toNat / 16 % 16), hexDigitU (c.r.toNat % 16)]
      = some c.r.toNat := parseHexPair_hexPair hr0 hr1
  have e2 : parseHexPair [hexDigitU (c.g.toNat / 16 % 16), hexDigitU (c.g.toNat % 16)]
      = some c.g.toNat := parseHexPair_hexPair hg0 hg1
  have e3 : parseHexPair [hexDigitU (c.b.toNat / 16 % 16), hexDigitU (c.b.toNat % 16)]
      = some c.b.toNat := parseHexPair_hexPair hb0 hb1
  have e4 : parseHexPair [hexDigitU (c.a.toNat / 16 % 16), hexDigitU (c.a.toNat % 16)]
      = some c.a.toNat := parseHexPair_hexPair ha0 ha1
  show SimpleColor.from_hex
      ⟨'#' :: (hexPair c.r ++ hexPair c.g ++ hexPair c.b ++ hexPair c.a)⟩ = .ok c
  unfold SimpleColor.from_hex
  simp only [hexPair, List.cons_append, List.nil_append, List.dropWhile, decide_True,
    decide_eq_true_eq, hno, decide_False, List.length_cons, List.length_nil]
  norm_num
  rw [e1, e2, e3, e4]
  simp only [SimpleColor.init]
  rw [Int.toNat_of_nonneg hr0, Int.toNat_of_nonneg hg0, Int.toNat_of_nonneg hb0,
    Int.toNat_of_nonneg ha0, clampChannel_of_range hr0 hr1, clampChannel_of_range hg0 hg1,
    clampChannel_of_range hb0 hb1, clampChannel_of_range ha0 ha1]

/-- C10: the SimpleColor constructor clamps each channel into [0, 255];
`to_hex` yields a `#` followed by eight hex digits (`#RRGGBBAA`), and
`from_hex (to_hex c)` recovers the colour component-wise. -/
theorem simplecolor_clamp_hex_roundtrip (r g b a : Int) :
    (0 ≤ (SimpleColor.init r g b a).r ∧ (SimpleColor.init r g b a).r ≤ 255) ∧
    (0 ≤ (SimpleColor.init r g b a).g ∧ (SimpleColor.init r g b a).g ≤ 255) ∧
    (0 ≤ (SimpleColor.init r g b a).b ∧ (SimpleColor.init r g b a).b ≤ 255) ∧
    (0 ≤ (SimpleColor.init r g b a).a ∧ (SimpleColor.init r g b a).a ≤ 255) ∧
    (∃ cs : List Char, (SimpleColor.init r g b a).to_hex.data = '#' :: cs ∧
      cs.length = 8 ∧ ∀ ch ∈ cs, (hexVal ch).isSome) ∧
    SimpleColor.from_hex (SimpleColor.init r g b a).to_hex = .ok (SimpleColor.init r g b a) := by
  set c := SimpleColor.init r g b a with hc
  have hr0 : 0 ≤ c.r := clampChannel_nonneg r
  have hr1 : c.r ≤ 255 := clampChannel_le r
  have hg0 : 0 ≤ c.g := clampChannel_nonneg g
  have hg1 : c.g ≤ 255 := clampChannel_le g
  have hb0 : 0 ≤ c.b := clampChannel_nonneg b
  have hb1 : c.b ≤ 255 := clampChannel_le b
  have ha0 : 0 ≤ c.a := clampChannel_nonneg a
  have ha1 : c.a ≤ 255 := clampChannel_le a
  refine ⟨⟨hr0, hr1⟩, ⟨hg0, hg1⟩, ⟨hb0, hb1⟩, ⟨ha0, ha1⟩, ?_, ?_⟩
  · refine ⟨hexPair c.r ++ hexPair c.g ++ hexPair c.b ++ hexPair c.a, rfl, rfl, ?_⟩
    intro ch hch
    have hlt : ∀ v : Int, ∀ x ∈ hexPair v, (hexVal x).isSome := by
      intro v x hx
      simp only [hexPair, List.mem_cons, List.not_mem_nil, or_false] at hx
      rcases hx with h | h
      · subst h; exact hexVal_isSome_hexDigitU (Nat.mod_lt _ (by norm_num))
      · subst h; exact hexVal_isSome_hexDigitU (Nat.mod_lt _ (by norm_num))
    simp only [List.mem_append] at hch
    rcases hch with ((h | h) | h) | h
    · exact hlt c.r ch h
    · exact hlt c.g ch h
    · exact hlt c.b ch h
    · exact hlt c.a ch h
  · exact from_hex_to_hex hr0 hr1 hg0 hg1 hb0 hb1 ha0 ha1

/-- Witness for C10: the round-trip identity at a concrete colour whose
red channel is clamped down from 300 and green up from -5. -/
theorem simplecolor_clamp_hex_roundtrip_witness :
    SimpleColor.from_hex (SimpleColor.init 300 (-5) 128 64).to_hex
      = .ok (SimpleColor.init 300 (-5) 128 64) ∧
    0 ≤ (SimpleColor.init 300 (-5) 128 64).r ∧
    (SimpleColor.init 300 (-5) 128 64).r ≤ 255 := by
  obtain ⟨⟨h0, h1⟩, _, _, _, _, hrt⟩ := simplecolor_clamp_hex_roundtrip 300 (-5) 128 64
  exact ⟨hrt, h0, h1⟩

/-! ## SubtitleFormatRegistry (src/PySubtitle/SubtitleFormatRegistry.py)

The registry keeps two dictionaries keyed by lower-cased extension:
`_handlers : ext → handler class` and `_priorities : ext → priority`.
`register_handler` walks the handler's `get_extension_priorities()` map
and stores the class when the extension is new or its priority is `>=`
the stored one.  `get_handler_by_extension` lower-cases the query and
raises `ValueError` when the extension is unknown.  Auto-discovery scans
the filesystem and is elided here: the theorems speak about a registry
state in which discovery has already run (`_discovered` is true), which
is the state in which every lookup takes place.
-/

/-- Python `str.lower()` restricted to ASCII, which is all the registry
keys use (`Char.toLower` maps `A`-`Z` to `a`-`z` and is the identity
elsewhere, like Python for ASCII input). -/
def pyLower (s : String) : String := ⟨s.data.map Char.toLower⟩

/-- A subtitle file handler class, abstracted to its identity and its
`get_extension_priorities()` map (`SUPPORTED_EXTENSIONS`). -/
structure HandlerClass where
  id : Nat
  priorities : List (String × Int)
  deriving DecidableEq, Repr

/-- The registry's class-level state: `_handlers` and `_priorities`,
merged into one insertion-ordered map `ext → (class, priority)`. -/
structure Registry where
  entries : List (String × (HandlerClass × Int))
  deriving DecidableEq, Repr

/-- Python dict `d[k] = v`: replace in place when the key exists,
append otherwise. -/
def dictSet (k : String) (v : HandlerClass × Int) :
    List (String × (HandlerClass × Int)) → List (String × (HandlerClass × Int))
  | [] => [(k, v)]
  | (k', v') :: rest => if k' = k then (k, v) :: rest else (k', v') :: dictSet k v rest

/-- Python dict lookup `d.get(k)`. -/
def dictGet (k : String) : List (String × (HandlerClass × Int)) → Option (HandlerClass × Int)
  | [] => none
  | (k', v') :: rest => if k' = k then some v' else dictGet k rest

/-- One iteration of the loop in `register_handler`: store the class for
`ext.lower()` when the extension is absent or the new priority is `>=`
the stored one. -/
def registerExt (cls : HandlerClass) (r : Registry) (extPr : String × Int) : Registry :=
  let ext := pyLower extPr.1
  match dictGet ext r.entries with
  | none => ⟨dictSet ext (cls, extPr.2) r.entries⟩
  | some (_, oldPr) =>
      if extPr.2 ≥ oldPr then ⟨dictSet ext (cls, extPr.2) r.entries⟩ else r

/-- `SubtitleFormatRegistry.register_handler`. -/
def register_handler (r : Registry) (cls : HandlerClass) : Registry :=
  cls.priorities.foldl (registerExt cls) r

/-- `SubtitleFormatRegistry.get_handler_by_extension` on a discovered
registry: lower-case the extension, raise `ValueError` when unknown. -/
def get_handler_by_extension (r : Registry) (extension : String) :
    Except String HandlerClass :=
  match dictGet (pyLower extension) r.entries with
  | some (cls, _) => .ok cls
  | none => .error "Unknown subtitle format"

lemma dictGet_dictSet_self (k : String) (v : HandlerClass × Int)
    (l : List (String × (HandlerClass × Int))) : dictGet k (dictSet k v l) = some v := by
  induction l with
  | nil => simp [dictGet, dictSet]
  | cons hd tl ih =>
      by_cases h : hd.1 = k
      · simp [dictGet, dictSet, h]
      · simp [dictGet, dictSet, h, ih]

/-- C7: registering two handler classes for the same extension with
different priorities makes lookup return the higher-priority class
regardless of registration order; lookups are case-insensitive (two
extensions with the same lower-casing resolve identically); an
unregistered extension raises `ValueError`. -/
theorem registry_priority_case_insensitive_lookup
    (r : Registry) (h1 h2 : HandlerClass) (ext : String) (p1 p2 : Int)
    (hp : p1 < p2) (habs : dictGet (pyLower ext) r.entries = none)
    (hh1 : h1.priorities = [(ext, p1)]) (hh2 : h2.priorities = [(ext, p2)]) :
    (get_handler_by_extension (register_handler (register_handler r h1) h2) ext
        = .ok h2) ∧
    (get_handler_by_extension (register_handler (register_handler r h2) h1) ext
        = .ok h2) ∧
    (∀ (s : Registry) (e1 e2 : String), pyLower e1 = pyLower e2 →
      get_handler_by_extension s e1 = get_handler_by_extension s e2) ∧
    (∀ (s : Registry) (e : String), dictGet (pyLower e) s.entries = none →
      ∃ msg, get_handler_by_extension s e = .error msg) := by
  refine ⟨?_, ?_, ?_, ?_⟩
  · simp only [register_handler, hh1, hh2, List.foldl, registerExt, habs,
      dictGet_dictSet_self, ge_iff_le]
    rw [if_pos (le_of_lt hp)]
    simp [get_handler_by_extension, dictGet_dictSet_self]
  · simp only [register_handler, hh1, hh2, List.foldl, registerExt, habs,
      dictGet_dictSet_self, ge_iff_le]
    rw [if_neg (not_le_of_lt hp)]
    simp [get_handler_by_extension, dictGet_dictSet_self]
  · intro s e1 e2 he
    simp [get_handler_by_extension, he]
  · intro s e he
    exact ⟨"Unknown subtitle format", by simp [get_handler_by_extension, he]⟩

/-- Witness for C7: concrete handlers with priorities 1 < 10 registered
for `.vtt` in both orders; `.VTT` and `.vtt` resolve identically; the
empty registry rejects `.srt`. -/
theorem registry_priority_case_insensitive_lookup_witness :
    (get_handler_by_extension
        (register_handler (register_handler ⟨[]⟩ ⟨1, [(".vtt", 1)]⟩) ⟨2, [(".vtt", 10)]⟩) ".VTT"
      = .ok ⟨2, [(".vtt", 10)]⟩) ∧
    (get_handler_by_extension
        (register_handler (register_handler ⟨[]⟩ ⟨2, [(".vtt", 10)]⟩) ⟨1, [(".vtt", 1)]⟩) ".vtt"
      = .ok ⟨2, [(".vtt", 10)]⟩) ∧
    (get_handler_by_extension (⟨[]⟩ : Registry) ".srt").isOk = false := by
  have h := registry_priority_case_insensitive_lookup ⟨[]⟩ ⟨1, [(".vtt", 1)]⟩
    ⟨2, [(".vtt", 10)]⟩ ".vtt" 1 10 (by norm_num) rfl rfl rfl
  obtain ⟨ha, hb, hcase, herr⟩ := h
  refine ⟨?_, ?_, ?_⟩
  · rw [hcase _ ".VTT" ".vtt" (by decide)]
    exact ha
  · exact hb
  · obtain ⟨msg, hm⟩ := herr ⟨[]⟩ ".srt" rfl
    rw [hm]
    rfl

/-! ## SubtitleProject.TranslateSubtitles (src/PySubtrans/SubtitleProject.py)

The try/except structure of `TranslateSubtitles`:
`save_translation = self.write_translation and not translator.preview`;
on success `SaveTranslation()` runs when `save_translation` and the
translator was not aborted; `except TranslationAbortedError` logs and
swallows; `except Exception` saves the partial translation when
`save_translation and self.subtitles.any_translated` and then re-raises.
-/

/-- How the `translator.TranslateSubtitles(self.subtitles)` call ends. -/
inductive TranslatorOutcome where
  | success
  | raisesAborted
  | raisesOther
  deriving DecidableEq, Repr

/-- Observable effects of one `SubtitleProject.TranslateSubtitles` call. -/
structure ProjectRunResult where
  savedTranslation : Bool
  savedOnFailure : Bool
  reraised : Bool
  loggedAbort : Bool
  deriving DecidableEq, Repr

/-- `SubtitleProject.TranslateSubtitles`, as a function of the flags it
reads and of how the translator run ends. -/
def projectTranslateSubtitles (write_translation preview translatorAborted
    any_translated : Bool) (outcome : TranslatorOutcome) : ProjectRunResult :=
  let save_translation := write_translation && !preview
  match outcome with
  | .success => ⟨save_translation && !translatorAborted, false, false, false⟩
  | .raisesAborted => ⟨false, false, false, true⟩
  | .raisesOther => ⟨false, save_translation && any_translated, true, false⟩

/-- C8: when the translator run raises, a `TranslationAbortedError` is
logged and not re-raised; any other exception is re-raised, and before
re-raising the partial translation is saved exactly when some lines are
translated, `write_translation` is set and this is not a preview run. -/
theorem project_translate_error_handling
    (write_translation preview translatorAborted any_translated : Bool) :
    (projectTranslateSubtitles write_translation preview translatorAborted
        any_translated .raisesAborted).loggedAbort = true ∧
    (projectTranslateSubtitles write_translation preview translatorAborted
        any_translated .raisesAborted).reraised = false ∧
    (projectTranslateSubtitles write_translation preview translatorAborted
        any_translated .raisesOther).reraised = true ∧
    (projectTranslateSubtitles write_translation preview translatorAborted
        any_translated .raisesOther).savedOnFailure
      = (any_translated && write_translation && !preview) := by
  refine ⟨rfl, rfl, rfl, ?_⟩
  simp only [projectTranslateSubtitles]
  cases any_translated <;> cases write_translation <;> cases preview <;> rfl

/-! ## OpenAIReasoningClient._convert_to_input_params
(src/PySubtrans/Providers/Clients/OpenAIReasoningClient.py)

`content` may be a scalar (not a list) or a list whose elements are
strings, dicts, or something else.  The conversion raises
`TranslationError` for a non-list, a string first element, any non-dict
element, or a role outside {user, system, developer, assistant}, and
otherwise emits one `EasyInputMessageParam` per dict, in order, with
`role` defaulting to `'user'` and `content` to `''`.
-/

/-- An element of the `content` list. -/
inductive MsgItem where
  | str (s : String)
  | dict (entries : List (String × String))
  | other
  deriving DecidableEq, Repr

/-- The `content` argument: either not a list at all, or a list. -/
inductive MsgContent where
  | scalar
  | list (items : List MsgItem)
  deriving DecidableEq, Repr

structure EasyInputMessageParam where
  role : String
  content : String
  type : String
  deriving DecidableEq, Repr

/-- Python `msg.get(key, default)` on a string-valued dict. -/
def pyDictGet (entries : List (String × String)) (key default : String) : String :=
  match entries.find? (fun e => e.1 = key) with
  | some e => e.2
  | none => default

/-- The accepted roles (`('user', 'system', 'developer', 'assistant')`). -/
def validRoles : List String := ["user", "system", "developer", "assistant"]

/-- The typed message built for one dict element. -/
def messageOfDict (entries : List (String × String)) : EasyInputMessageParam :=
  ⟨pyDictGet entries "role" "user", pyDictGet entries "content" "", "message"⟩

/-- The `for msg in content` loop of `_convert_to_input_params`:
raises at the first non-dict element or invalid role, otherwise
accumulates one typed message per element in order. -/
def convertLoop : List MsgItem → Except String (List EasyInputMessageParam)
  | [] => .ok []
  | .dict entries :: rest =>
      if pyDictGet entries "role" "user" ∈ validRoles then
        match convertLoop rest with
        | .ok tail => .ok (messageOfDict entries :: tail)
        | .error e => .error e
      else
        .error "Invalid message role"
  | _ :: _ => .error "Content must be a list of message dicts for Responses API"

/-- `OpenAIReasoningClient._convert_to_input_params`. -/
def convert_to_input_params : MsgContent → Except String (List EasyInputMessageParam)
  | .scalar => .error "Content must be a list for Responses API"
  | .list (.str _ :: _) => .error "Content must be a list of message dicts for Responses API"
  | .list items => convertLoop items

lemma convertLoop_error_of_nondict {items : List MsgItem}
    (h : ∃ x ∈ items, ∀ e, x ≠ .dict e) :
    ∃ msg, convertLoop items = .error msg := by
  induction items with
  | nil => obtain ⟨x, hx, _⟩ := h; exact absurd hx (List.not_mem_nil x)
  | cons hd tl ih =>
      obtain ⟨x, hx, hnd⟩ := h
      rcases List.mem_cons.mp hx with rfl | hmem
      · cases x with
        | dict e => exact absurd rfl (hnd e)
        | str s => exact ⟨_, rfl⟩
        | other => exact ⟨_, rfl⟩
      · cases hd with
        | dict e =>
            obtain ⟨msg, hmsg⟩ := ih ⟨x, hmem, hnd⟩
            by_cases hrole : pyDictGet e "role" "user" ∈ validRoles
            · exact ⟨msg, by simp [convertLoop, hrole, hmsg]⟩
            · exact ⟨"Invalid message role", by simp [convertLoop, hrole]⟩
        | str s => exact ⟨_, rfl⟩
        | other => exact ⟨_, rfl⟩

lemma convertLoop_error_of_bad_role {items : List MsgItem}
    (h : ∃ e, MsgItem.dict e ∈ items ∧ pyDictGet e "role" "user" ∉ validRoles) :
    ∃ msg, convertLoop items = .error msg := by
  induction items with
  | nil => obtain ⟨e, he, _⟩ := h; exact absurd he (List.not_mem_nil _)
  | cons hd tl ih =>
      obtain ⟨e, he, hbad⟩ := h
      rcases List.mem_cons.mp he with heq | hmem
      · rw [← heq]
        exact ⟨"Invalid message role", by simp [convertLoop, hbad]⟩
      · cases hd with
        | dict e' =>
            obtain ⟨msg, hmsg⟩ := ih ⟨e, hmem, hbad⟩
            by_cases hrole : pyDictGet e' "role" "user" ∈ validRoles
            · exact ⟨msg, by simp [convertLoop, hrole, hmsg]⟩
            · exact ⟨"Invalid message role", by simp [convertLoop, hrole]⟩
        | str s => exact ⟨_, rfl⟩
        | other => exact ⟨_, rfl⟩

lemma convertLoop_ok_of_valid {items : List MsgItem}
    (h : ∀ x ∈ items, ∃ e, x = .dict e ∧ pyDictGet e "role" "user" ∈ validRoles) :
    convertLoop items
      = .ok (items.map fun x => match x with
          | .dict e => messageOfDict e
          | _ => ⟨"user", "", "message"⟩) := by
  induction items with
  | nil => rfl
  | cons hd tl ih =>
      obtain ⟨e, rfl, hrole⟩ := h hd (List.mem_cons_self hd tl)
      have htl := ih (fun x hx => h x (List.mem_cons_of_mem _ hx))
      simp [convertLoop, hrole, htl]

/-- C9: `_convert_to_input_params` raises `TranslationError` for a
non-list content, a string first element, any non-dict element, or an
invalid role; otherwise it returns exactly one typed message per input
dict, in order, defaulting missing roles to `user`. -/
theorem convert_to_input_params_spec :
    (∃ msg, convert_to_input_params .scalar = .error msg) ∧
    (∀ s rest, ∃ msg, convert_to_input_params (.list (.str s :: rest)) = .error msg) ∧
    (∀ items, (∃ x ∈ items, ∀ e, x ≠ MsgItem.dict e) →
      ∃ msg, convert_to_input_params (.list items) = .error msg) ∧
    (∀ items, (∃ e, MsgItem.dict e ∈ items ∧ pyDictGet e "role" "user" ∉ validRoles) →
      ∃ msg, convert_to_input_params (.list items) = .error msg) ∧
    (∀ (dicts : List (List (String × String))),
      (∀ e ∈ dicts, pyDictGet e "role" "user" ∈ validRoles) →
      convert_to_input_params (.list (dicts.map MsgItem.dict))
        = .ok (dicts.map messageOfDict)) := by
  refine ⟨⟨_, rfl⟩, fun s rest => ⟨_, rfl⟩, ?_, ?_, ?_⟩
  · intro items h
    obtain ⟨msg, hmsg⟩ := convertLoop_error_of_nondict h
    cases items with
    | nil => obtain ⟨x, hx, _⟩ := h; exact absurd hx (List.not_mem_nil x)
    | cons hd tl =>
        cases hd with
        | str s => exact ⟨_, rfl⟩
        | dict e => exact ⟨msg, hmsg⟩
        | other => exact ⟨msg, hmsg⟩
  · intro items h
    obtain ⟨msg, hmsg⟩ := convertLoop_error_of_bad_role h
    cases items with
    | nil => obtain ⟨e, he, _⟩ := h; exact absurd he (List.not_mem_nil _)
    | cons hd tl =>
        cases hd with
        | str s => exact ⟨_, rfl⟩
        | dict e => exact ⟨msg, hmsg⟩
        | other => exact ⟨msg, hmsg⟩
  · intro dicts h
    have hvalid : ∀ x ∈ dicts.map MsgItem.dict,
        ∃ e, x = MsgItem.dict e ∧ pyDictGet e "role" "user" ∈ validRoles := by
      intro x hx
      obtain ⟨e, he, rfl⟩ := List.mem_map.mp hx
      exact ⟨e, rfl, h e he⟩
    have hloop := convertLoop_ok_of_valid hvalid
    cases dicts with
    | nil => rfl
    | cons hd tl =>
        simp only [List.map_cons] at hloop ⊢
        rw [show convert_to_input_params
            (.list (MsgItem.dict hd :: tl.map MsgItem.dict))
            = convertLoop (MsgItem.dict hd :: tl.map MsgItem.dict) from rfl, hloop]
        simp

/-- Witness for C9: a system message plus a message with no role (which
defaults to `user`) convert in order; a bare string element and a
wrong role are rejected. -/
theorem convert_to_input_params_spec_witness :
    convert_to_input_params (.list [.dict [("role", "system"), ("content", "instructions")],
        .dict [("content", "hello")]])
      = .ok [⟨"system", "instructions", "message"⟩, ⟨"user", "hello", "message"⟩] ∧
    (convert_to_input_params (.list [.dict [("role", "system")], .other])).isOk = false ∧
    (convert_to_input_params (.list [.dict [("role", "tool")]])).isOk = false := by
  obtain ⟨_, _, hnd, hrole, hok⟩ := convert_to_input_params_spec
  refine ⟨?_, ?_, ?_⟩
  · have := hok [[("role", "system"), ("content", "instructions")], [("content", "hello")]]
      (by decide)
    simpa [messageOfDict, pyDictGet] using this
  · obtain ⟨msg, hm⟩ := hnd [.dict [("role", "system")], .other]
      ⟨.other, by decide, by intro e h; cases h⟩
    rw [hm]
    rfl
  · obtain ⟨msg, hm⟩ := hrole [.dict [("role", "tool")]]
      ⟨[("role", "tool")], by decide, by decide⟩
    rw [hm]
    rfl

/-! ## Subtitle data model (PySubtrans.Subtitles / SubtitleScene / SubtitleBatch / SubtitleLine)

The container classes themselves are not under src/ (only SubtitleEditor
and tests are), so the structures below carry exactly the fields the
embedded operations touch: a line has a number, a start and an end
timestamp (milliseconds; `none` is Python None), display text and
format metadata; a batch has its owning scene number, its own number and
the originals/translated line lists; a scene has a number and its batch
list.  Python object identity is irrelevant to the operations modelled
here (see the comments at the places where the source uses identity).
-/

/-- A metadata value: VTT metadata holds strings and string lists. -/
inductive MetaVal where
  | s (v : String)
  | l (v : List String)
  deriving DecidableEq, Repr

structure SubtitleLine where
  number : Int
  start : Option Nat
  endTime : Option Nat
  text : String
  metadata : List (String × MetaVal)
  deriving DecidableEq, Repr

structure SubtitleBatch where
  scene : Int
  number : Int
  originals : List SubtitleLine
  translated : List SubtitleLine
  deriving DecidableEq, Repr

structure SubtitleScene where
  number : Int
  batches : List SubtitleBatch
  deriving DecidableEq, Repr

structure Subtitles where
  scenes : List SubtitleScene
  deriving DecidableEq, Repr

/-! ## SubtitleEditor (src/PySubtrans/SubtitleEditor.py)

Each mutation is embedded as a pure state transformer; raising becomes
an `Except` result.  In every embedded operation the Python code raises
before it mutates anything, so an error result models the state being
left unchanged.
-/

/-- The inner loop of `RenumberScenes`:
`for batch_number, batch in enumerate(scene.batches, start=1)` assigning
`batch.scene = scene.number; batch.number = batch_number`. -/
def renumberBatchesFrom (sceneNumber : Int) (k : Int) :
    List SubtitleBatch → List SubtitleBatch
  | [] => []
  | b :: rest =>
      { b with scene := sceneNumber, number := k } :: renumberBatchesFrom sceneNumber (k + 1) rest

/-- The outer loop of `RenumberScenes`:
`for scene_number, scene in enumerate(self.subtitles.scenes, start=1)`. -/
def renumberScenesFrom (k : Int) : List SubtitleScene → List SubtitleScene
  | [] => []
  | sc :: rest =>
      { sc with number := k, batches := renumberBatchesFrom k 1 sc.batches }
        :: renumberScenesFrom (k + 1) rest

/-- `SubtitleEditor.RenumberScenes`. -/
def RenumberScenes (subs : Subtitles) : Subtitles :=
  ⟨renumberScenesFrom 1 subs.scenes⟩

/-- `SubtitleEditor.AddScene`: appends the given scene, nothing else. -/
def AddScene (subs : Subtitles) (scene : SubtitleScene) : Subtitles :=
  ⟨subs.scenes ++ [scene]⟩

/-- Batches at positions `i` carry number `k + i` and the given scene
number. -/
def batchesNumbered (sceneNumber : Int) (k : Int) : List SubtitleBatch → Bool
  | [] => true
  | b :: rest =>
      b.number == k && b.scene == sceneNumber && batchesNumbered sceneNumber (k + 1) rest

/-- Scenes at positions `i` carry number `k + i` and sequentially
numbered batches owned by that scene number. -/
def scenesNumbered (k : Int) : List SubtitleScene → Bool
  | [] => true
  | sc :: rest =>
      sc.number == k && batchesNumbered sc.number 1 sc.batches && scenesNumbered (k + 1) rest

/-- The numbering invariant: scene at index i has number i+1; batch at
index j of that scene has number j+1 and scene back-reference i+1. -/
def NumberedSequentially (subs : Subtitles) : Prop :=
  scenesNumbered 1 subs.scenes = true

instance (subs : Subtitles) : Decidable (NumberedSequentially subs) := by
  unfold NumberedSequentially; infer_instance

lemma batchesNumbered_get {sn k : Int} {bs : List SubtitleBatch}
    (h : batchesNumbered sn k bs = true) (j : Nat) (hj : j < bs.length) :
    (bs.get ⟨j, hj⟩).number = k + j ∧ (bs.get ⟨j, hj⟩).scene = sn := by
  induction bs generalizing k j with
  | nil => exact absurd hj (by simp)
  | cons b rest ih =>
      simp only [batchesNumbered, Bool.and_eq_true, beq_iff_eq] at h
      obtain ⟨⟨hn, hs⟩, hrest⟩ := h
      cases j with
      | zero => exact ⟨by simpa using hn, by simpa using hs⟩
      | succ j =>
          have h2 := ih hrest j (Nat.lt_of_succ_lt_succ hj)
          rw [List.get_cons_succ]
          refine ⟨?_, h2.2⟩
          rw [h2.1]
          push_cast
          ring

lemma scenesNumbered_get {k : Int} {scenes : List SubtitleScene}
    (h : scenesNumbered k scenes = true) (i : Nat) (hi : i < scenes.length) :
    (scenes.get ⟨i, hi⟩).number = k + i ∧
    batchesNumbered (scenes.get ⟨i, hi⟩).number 1 (scenes.get ⟨i, hi⟩).batches = true := by
  induction scenes generalizing k i with
  | nil => exact absurd hi (by simp)
  | cons sc rest ih =>
      simp only [scenesNumbered, Bool.and_eq_true, beq_iff_eq] at h
      obtain ⟨⟨hn, hb⟩, hrest⟩ := h
      cases i with
      | zero => exact ⟨by simpa using hn, by simpa using hb⟩
      | succ i =>
          have h2 := ih hrest i (Nat.lt_of_succ_lt_succ hi)
          rw [List.get_cons_succ]
          refine ⟨?_, h2.2⟩
          rw [h2.1]
          push_cast
          ring

lemma batchesNumbered_renumber (sn : Int) (k : Int) (bs : List SubtitleBatch) :
    batchesNumbered sn k (renumberBatchesFrom sn k bs) = true := by
  induction bs generalizing k with
  | nil => rfl
  | cons b rest ih => simp [renumberBatchesFrom, batchesNumbered, ih]

lemma scenesNumbered_renumber (k : Int) (scenes : List SubtitleScene) :
    scenesNumbered k (renumberScenesFrom k scenes) = true := by
  induction scenes generalizing k with
  | nil => rfl
  | cons sc rest ih =>
      simp [renumberScenesFrom, scenesNumbered, batchesNumbered_renumber, ih]

lemma renumber_numbered (subs : Subtitles) : NumberedSequentially (RenumberScenes subs) :=
  scenesNumbered_renumber 1 subs.scenes

/-- Python `line.number and line.start is not None` from `Sanitise`
(a line number of 0 is falsy). -/
def validLine (l : SubtitleLine) : Bool :=
  l.number != 0 && l.start != none

/-- The per-batch body of `Sanitise`: keep valid originals, keep valid
translated lines (the translated filter runs only when the list is
non-empty, which filters of the empty list also model), then drop
translated lines whose number matches no original.  The Python removal
via `line not in unmatched_translated` compares by object identity, so
it keeps exactly the lines whose number occurs among the originals. -/
def sanitiseBatch (b : SubtitleBatch) : SubtitleBatch :=
  let originals := b.originals.filter validLine
  let translated := b.translated.filter validLine
  let nums := originals.map (·.number)
  { b with originals := originals,
           translated := translated.filter (fun l => l.number ∈ nums) }

/-- `SubtitleEditor.Sanitise`: drops batches with no originals, then
cleans the lines of each surviving batch, then drops scenes with no
batches, then renumbers.  Note the order: the empty-batch filter runs
before invalid lines are removed. -/
def Sanitise (subs : Subtitles) : Subtitles :=
  let scenes := subs.scenes.map (fun sc =>
    { sc with batches := (sc.batches.filter (fun b => !b.originals.isEmpty)).map sanitiseBatch })
  RenumberScenes ⟨scenes.filter (fun sc => !sc.batches.isEmpty)⟩

/-- The post-state asserted by claim C1, as a decidable check: all lines
valid, no batch without originals, no scene without batches, translated
lines matched to an original of their batch, numbering sequential. -/
def sanitiseClaimHolds (subs : Subtitles) : Bool :=
  subs.scenes.all (fun sc =>
    !sc.batches.isEmpty &&
    sc.batches.all (fun b =>
      !b.originals.isEmpty &&
      b.originals.all validLine &&
      b.translated.all (fun l =>
        validLine l && b.originals.any (fun o => o.number == l.number)))) &&
  scenesNumbered 1 subs.scenes

/-- A state with one scene holding one batch whose single original line
is invalid (number 0). -/
def exInvalidOnly : Subtitles :=
  ⟨[⟨1, [⟨1, 1, [⟨0, some 0, some 1000, "bad", []⟩], []⟩]⟩]⟩

/-- Counterexample to C1 as stated: `Sanitise` filters empty batches
before it removes invalid lines, so a batch whose lines were all
invalid survives with an empty originals list (and its scene survives
with it). -/
theorem sanitise_claim_counterexample :
    sanitiseClaimHolds (Sanitise exInvalidOnly) = false := by decide

/-- Membership in a renumbered batch list only changes numbering
fields. -/
lemma mem_renumberBatchesFrom {sn k : Int} {bs : List SubtitleBatch} {b' : SubtitleBatch}
    (h : b' ∈ renumberBatchesFrom sn k bs) :
    ∃ b ∈ bs, b'.originals = b.originals ∧ b'.translated = b.translated := by
  induction bs generalizing k with
  | nil => simp [renumberBatchesFrom] at h
  | cons b rest ih =>
      simp only [renumberBatchesFrom, List.mem_cons] at h
      rcases h with rfl | h
      · exact ⟨b, List.mem_cons_self b rest, rfl, rfl⟩
      · obtain ⟨b0, hb0, he⟩ := ih h
        exact ⟨b0, List.mem_cons_of_mem _ hb0, he⟩

lemma renumberBatchesFrom_isEmpty (sn k : Int) (bs : List SubtitleBatch) :
    (renumberBatchesFrom sn k bs).isEmpty = bs.isEmpty := by
  cases bs <;> rfl

/-- Membership in a renumbered scene list only changes numbering
fields of the scene and of its batches. -/
lemma mem_renumberScenesFrom {k : Int} {scenes : List SubtitleScene} {sc' : SubtitleScene}
    (h : sc' ∈ renumberScenesFrom k scenes) :
    ∃ sc ∈ scenes, ∃ n, sc'.batches = renumberBatchesFrom n 1 sc.batches := by
  induction scenes generalizing k with
  | nil => simp [renumberScenesFrom] at h
  | cons sc rest ih =>
      simp only [renumberScenesFrom, List.mem_cons] at h
      rcases h with rfl | h
      · exact ⟨sc, List.mem_cons_self sc rest, k, rfl⟩
      · obtain ⟨sc0, hsc0, n, he⟩ := ih h
        exact ⟨sc0, List.mem_cons_of_mem _ hsc0, n, he⟩

/-- C1 (amended): after `Sanitise`, every remaining original and
translated line has a non-zero number and a non-nil start, every
remaining translated line matches an original of its batch, no scene
has an empty batch list, and scene and batch numbers are sequential
from 1.  The conjunct of C1 that fails (see the counterexample) is the
absence of batches with an empty originals list: a batch whose original
lines were all invalid survives empty, because `Sanitise` prunes empty
batches before it removes invalid lines. -/
theorem sanitise_post_state (subs : Subtitles) :
    (∀ sc ∈ (Sanitise subs).scenes,
      sc.batches.isEmpty = false ∧
      ∀ b ∈ sc.batches,
        (∀ l ∈ b.originals, validLine l = true) ∧
        (∀ l ∈ b.translated,
          validLine l = true ∧ ∃ o ∈ b.originals, o.number = l.number)) ∧
    NumberedSequentially (Sanitise subs) := by
  constructor
  · intro sc' hsc'
    have hmem := mem_renumberScenesFrom (k := 1) hsc'
    obtain ⟨sc, hsc, n, hbatches⟩ := hmem
    have hscf := List.mem_filter.mp hsc
    obtain ⟨hscmap, hne⟩ := hscf
    constructor
    · rw [hbatches, renumberBatchesFrom_isEmpty]
      simpa using hne
    · intro b' hb'
      rw [hbatches] at hb'
      obtain ⟨b, hb, horig, htrans⟩ := mem_renumberBatchesFrom hb'
      obtain ⟨sc0, _, rfl⟩ := List.mem_map.mp hscmap
      simp only [List.mem_map] at hb
      obtain ⟨b0, _, rfl⟩ := hb
      constructor
      · intro l hl
        rw [horig] at hl
        exact (List.mem_filter.mp hl).2
      · intro l hl
        rw [htrans] at hl
        have h1 := List.mem_filter.mp hl
        have h2 := List.mem_filter.mp h1.1
        refine ⟨h2.2, ?_⟩
        have h3 := h1.2
        simp only [List.mem_map, decide_eq_true_eq] at h3
        obtain ⟨o, ho, hnum⟩ := h3
        rw [horig]
        exact ⟨o, ho, hnum⟩
  · exact renumber_numbered _

/-- Witness for C1 (amended): the sanitised three-scene state keeps
sequential numbering and its first scene keeps a non-empty batch
list. -/
theorem sanitise_post_state_witness :
    NumberedSequentially (Sanitise exInvalidOnly) ∧
    (Sanitise exInvalidOnly).scenes.all (fun sc => !sc.batches.isEmpty) = true := by
  have h2 : (Sanitise exInvalidOnly).scenes.all (fun sc => !sc.batches.isEmpty) = true := by
    decide
  exact ⟨(sanitise_post_state exInvalidOnly).2, h2⟩

/-- Python
`scene_numbers == list(range(scene_numbers[0], scene_numbers[0] + len(scene_numbers)))`:
the list counts up by one from its first element. -/
def isSequentialFrom : Int → List Int → Bool
  | _, [] => true
  | k, x :: rest => x == k && isSequentialFrom (k + 1) rest

def isSequential (l : List Int) : Bool :=
  match l with
  | [] => true
  | x :: _ => isSequentialFrom x l

/-- The list `[a, a+1, ..., a+k-1]`. -/
def seqFromList (a : Int) : Nat → List Int
  | 0 => []
  | k + 1 => a :: seqFromList (a + 1) k

/-- `SubtitleEditor.MergeScenes`: sorts the supplied numbers, requires
them to be sequential, collects the scenes carrying those numbers,
merges them into the first (`SubtitleScene.MergeScenes` is not under
src/; modelled from the spec: the merged scene keeps its own header and
takes over the batches of the merged scenes in order, spec S5), slices
the other merged scenes out and renumbers.  The Python slice
`scenes[:start_index + 1] + scenes[end_index + 1:]` runs after the
first scene was merged in place, so position `start_index` holds the
merged scene; `list.index` compares by object identity, which makes
`start_index` the first and `end_index` the last position whose scene
number is among the sorted numbers. -/
def MergeScenes (subs : Subtitles) (scene_numbers : List Int) :
    Except String (Subtitles × SubtitleScene) :=
  if scene_numbers.isEmpty then
    .error "No scene numbers supplied to MergeScenes"
  else
    let sorted := List.insertionSort (· ≤ ·) scene_numbers
    if ¬ isSequential sorted then
      .error "Scene numbers to be merged are not sequential"
    else
      let selected := subs.scenes.filter (fun sc => sorted.contains sc.number)
      if selected.length ≠ sorted.length then
        .error "Could not find scenes"
      else
        match selected with
        | [] => .error "Could not find scenes"
        | first :: rest =>
            let merged : SubtitleScene :=
              { first with batches := first.batches ++ (rest.map (·.batches)).flatten }
            let si := subs.scenes.findIdx (fun sc => sorted.contains sc.number)
            let ei := subs.scenes.length - 1
              - subs.scenes.reverse.findIdx (fun sc => sorted.contains sc.number)
            let scenes' := subs.scenes.take si ++ [merged] ++ subs.scenes.drop (ei + 1)
            .ok (RenumberScenes ⟨scenes'⟩, merged)

def exSceneA : SubtitleScene := ⟨1, [⟨1, 1, [⟨1, some 0, some 1000, "a", []⟩], []⟩]⟩

def exSceneB : SubtitleScene := ⟨2, [⟨2, 1, [⟨2, some 2000, some 3000, "b", []⟩], []⟩]⟩

def exSceneC : SubtitleScene := ⟨3, [⟨3, 1, [⟨3, some 4000, some 5000, "c", []⟩], []⟩]⟩

/-- Three scenes, each with one batch of one line, numbered 1..3. -/
def exThreeScenes : Subtitles := ⟨[exSceneA, exSceneB, exSceneC]⟩

/-- Counterexample to C4 as stated: `[2, 1]` is not strictly sequential
in the order supplied, yet `MergeScenes` sorts the numbers first and
merges successfully (and changes the scene list), instead of raising. -/
theorem mergeScenes_order_counterexample :
    isSequential [(2 : Int), 1] = false ∧
    MergeScenes exThreeScenes [2, 1]
      = .ok (⟨[⟨1, [⟨1, 1, [⟨1, some 0, some 1000, "a", []⟩], []⟩,
                    ⟨1, 2, [⟨2, some 2000, some 3000, "b", []⟩], []⟩]⟩,
               ⟨2, [⟨2, 1, [⟨3, some 4000, some 5000, "c", []⟩], []⟩]⟩]⟩,
             ⟨1, [⟨1, 1, [⟨1, some 0, some 1000, "a", []⟩], []⟩,
                  ⟨2, 1, [⟨2, some 2000, some 3000, "b", []⟩], []⟩]⟩) ∧
    (⟨[⟨1, [⟨1, 1, [⟨1, some 0, some 1000, "a", []⟩], []⟩,
            ⟨1, 2, [⟨2, some 2000, some 3000, "b", []⟩], []⟩]⟩,
       ⟨2, [⟨2, 1, [⟨3, some 4000, some 5000, "c", []⟩], []⟩]⟩]⟩ : Subtitles).scenes.length = 2 ∧
    exThreeScenes.scenes.length = 3 := by
  refine ⟨by decide, by rfl, by decide, by decide⟩

lemma seqFromList_length (a : Int) (k : Nat) : (seqFromList a k).length = k := by
  induction k generalizing a with
  | zero => rfl
  | succ k ih => simp [seqFromList, ih]

lemma isSequentialFrom_seqFromList (a : Int) (k : Nat) :
    isSequentialFrom a (seqFromList a k) = true := by
  induction k generalizing a with
  | zero => rfl
  | succ k ih => simp [seqFromList, isSequentialFrom, ih]

lemma isSequential_seqFromList (a : Int) (k : Nat) :
    isSequential (seqFromList a k) = true := by
  cases k with
  | zero => rfl
  | succ k => simpa [seqFromList, isSequential] using isSequentialFrom_seqFromList a (k + 1)

lemma contains_seqFromList (a x : Int) (k : Nat) :
    (seqFromList a k).contains x = decide (a ≤ x ∧ x < a + k) := by
  induction k generalizing a with
  | zero => simp [seqFromList]
  | succ k ih =>
      simp only [seqFromList, List.contains_cons, ih]
      by_cases h : x = a
      · subst h
        rw [show (x == x) = true from by simp, Bool.true_or, eq_comm, decide_eq_true_eq]
        refine ⟨le_refl x, ?_⟩
        push_cast
        omega
      · have : (x == a) = false := by simpa using h
        rw [this]
        simp only [Bool.false_or]
        by_cases h2 : a + 1 ≤ x ∧ x < a + 1 + k
        · rw [decide_eq_true h2, decide_eq_true (by push_cast at h2 ⊢; omega)]
        · rw [decide_eq_false h2, decide_eq_false (by push_cast at h2 ⊢; omega)]

lemma scenesNumbered_append (k : Int) (l1 l2 : List SubtitleScene) :
    scenesNumbered k (l1 ++ l2)
      = (scenesNumbered k l1 && scenesNumbered (k + l1.length) l2) := by
  induction l1 generalizing k with
  | nil => simp [scenesNumbered]
  | cons sc rest ih =>
      simp only [List.cons_append, scenesNumbered, List.append_eq, ih, List.length_cons]
      have harith : k + 1 + (rest.length : Int) = k + ((rest.length + 1 : Nat) : Int) := by
        push_cast
        ring
      simp only [harith, Bool.and_assoc]

lemma scenesNumbered_mem_bounds {k : Int} {l : List SubtitleScene}
    (h : scenesNumbered k l = true) :
    ∀ sc ∈ l, k ≤ sc.number ∧ sc.number < k + l.length := by
  induction l generalizing k with
  | nil => intro sc hsc; exact absurd hsc (List.not_mem_nil sc)
  | cons hd tl ih =>
      simp only [scenesNumbered, Bool.and_eq_true, beq_iff_eq] at h
      obtain ⟨⟨hn, _⟩, hrest⟩ := h
      intro sc hsc
      rcases List.mem_cons.mp hsc with rfl | hmem
      · constructor
        · omega
        · simp only [List.length_cons]
          push_cast
          omega
      · have := ih hrest sc hmem
        constructor
        · omega
        · simp only [List.length_cons]
          push_cast
          push_cast at this
          omega

lemma findIdx_append_false {p : SubtitleScene → Bool} {l1 : List SubtitleScene}
    (h : ∀ x ∈ l1, p x = false) (l2 : List SubtitleScene) :
    List.findIdx p (l1 ++ l2) = l1.length + List.findIdx p l2 := by
  induction l1 with
  | nil => simp
  | cons hd tl ih =>
      have hhd : p hd = false := h hd (List.mem_cons_self hd tl)
      simp only [List.cons_append, List.findIdx_cons, hhd, cond_false, List.length_cons]
      rw [ih (fun x hx => h x (List.mem_cons_of_mem _ hx))]
      omega

/-- C4 (amended): `MergeScenes` raises for an empty list and whenever
the supplied scene numbers are not strictly sequential after sorting
ascending (the source sorts first, so order of supply does not matter —
see the counterexample); the checks precede every mutation, so the
scene list is unchanged on error.  For numbers that sort to a
sequential run of existing scene numbers, the scenes of that run are
merged into the first of them (which takes over their batches in
order), the others are removed and the remaining scenes are renumbered
sequentially. -/
theorem mergeScenes_contract :
    (∀ subs : Subtitles, ∃ msg, MergeScenes subs [] = .error msg) ∧
    (∀ (subs : Subtitles) (nums : List Int),
      isSequential (List.insertionSort (· ≤ ·) nums) = false →
      ∃ msg, MergeScenes subs nums = .error msg) ∧
    (∀ (subs : Subtitles) (nums : List Int) (pre : List SubtitleScene)
        (mhd : SubtitleScene) (mtl post : List SubtitleScene),
      NumberedSequentially subs →
      subs.scenes = pre ++ (mhd :: mtl) ++ post →
      List.insertionSort (· ≤ ·) nums
        = seqFromList ((pre.length : Int) + 1) (mtl.length + 1) →
      MergeScenes subs nums
        = .ok (RenumberScenes ⟨pre ++
              [{ mhd with batches := mhd.batches ++ (mtl.map (·.batches)).flatten }] ++ post⟩,
            { mhd with batches := mhd.batches ++ (mtl.map (·.batches)).flatten }) ∧
      NumberedSequentially (RenumberScenes ⟨pre ++
        [{ mhd with batches := mhd.batches ++ (mtl.map (·.batches)).flatten }] ++ post⟩)) := by
  refine ⟨fun subs => ⟨_, rfl⟩, ?_, ?_⟩
  · intro subs nums h
    cases hn : nums with
    | nil =>
        subst hn
        simp [List.insertionSort] at h
        exact absurd h (by simp [isSequential])
    | cons x xs =>
        subst hn
        refine ⟨"Scene numbers to be merged are not sequential", ?_⟩
        unfold MergeScenes
        rw [if_neg (by simp)]
        rw [if_pos (by rw [h]; simp)]
  · intro subs nums pre mhd mtl post hN hdec hsort
    have hN' : scenesNumbered 1 ((pre ++ (mhd :: mtl)) ++ post) = true := by
      have := hN
      unfold NumberedSequentially at this
      rwa [hdec] at this
    rw [scenesNumbered_append, Bool.and_eq_true, scenesNumbered_append,
      Bool.and_eq_true] at hN'
    obtain ⟨⟨hpre, hmid⟩, hpost⟩ := hN'
    have hpreB := scenesNumbered_mem_bounds hpre
    have hmidB := scenesNumbered_mem_bounds hmid
    have hpostB := scenesNumbered_mem_bounds hpost
    have hlen : nums.length = mtl.length + 1 := by
      have hperm := (List.perm_insertionSort (· ≤ ·) nums).length_eq
      rw [hsort, seqFromList_length] at hperm
      omega
    have hempty : nums.isEmpty = false := by
      cases nums with
      | nil => simp at hlen
      | cons _ _ => rfl
    have hpfalse_pre : ∀ sc ∈ pre,
        ((seqFromList ((pre.length : Int) + 1) (mtl.length + 1)).contains sc.number)
          = false := by
      intro sc hsc
      rw [contains_seqFromList]
      apply decide_eq_false
      intro hcontra
      have hb := hpreB sc hsc
      omega
    have hptrue_mid : ∀ sc ∈ mhd :: mtl,
        ((seqFromList ((pre.length : Int) + 1) (mtl.length + 1)).contains sc.number)
          = true := by
      intro sc hsc
      rw [contains_seqFromList]
      apply decide_eq_true
      have hb := hmidB sc hsc
      simp only [List.length_cons] at hb
      push_cast at hb ⊢
      omega
    have hpfalse_post : ∀ sc ∈ post,
        ((seqFromList ((pre.length : Int) + 1) (mtl.length + 1)).contains sc.number)
          = false := by
      intro sc hsc
      rw [contains_seqFromList]
      apply decide_eq_false
      intro hcontra
      have hb := hpostB sc hsc
      simp only [List.length_append, List.length_cons] at hb
      push_cast at hb hcontra
      omega
    have hfilter : subs.scenes.filter
        (fun sc => (seqFromList ((pre.length : Int) + 1) (mtl.length + 1)).contains sc.number)
          = mhd :: mtl := by
      rw [hdec, List.filter_append, List.filter_append]
      rw [List.filter_eq_nil_iff.mpr (by intro x hx; rw [hpfalse_pre x hx]; simp),
        List.filter_eq_self.mpr (fun x hx => hptrue_mid x hx),
        List.filter_eq_nil_iff.mpr (by intro x hx; rw [hpfalse_post x hx]; simp)]
      simp
    have hfi : subs.scenes.findIdx
        (fun sc => (seqFromList ((pre.length : Int) + 1) (mtl.length + 1)).contains sc.number)
          = pre.length := by
      rw [hdec, List.append_assoc, findIdx_append_false hpfalse_pre]
      rw [List.cons_append, List.findIdx_cons, hptrue_mid mhd (List.mem_cons_self _ _)]
      rfl
    have hri : subs.scenes.reverse.findIdx
        (fun sc => (seqFromList ((pre.length : Int) + 1) (mtl.length + 1)).contains sc.number)
          = post.length := by
      rw [hdec, List.reverse_append, List.reverse_append]
      rw [findIdx_append_false (by intro x hx; exact hpfalse_post x (List.mem_reverse.mp hx))]
      obtain ⟨y, ys, hys⟩ : ∃ y ys, (mhd :: mtl).reverse = y :: ys := by
        cases hrev : (mhd :: mtl).reverse with
        | nil => exact absurd (congrArg List.length hrev) (by simp)
        | cons y ys => exact ⟨y, ys, rfl⟩
      have hy : y ∈ mhd :: mtl := by
        rw [← List.mem_reverse, hys]
        exact List.mem_cons_self y ys
      rw [hys, List.cons_append, List.findIdx_cons, hptrue_mid y hy]
      simp
    have htake : List.take pre.length subs.scenes = pre := by
      rw [hdec, List.append_assoc]
      exact List.take_left pre _
    have hlenS : subs.scenes.length = pre.length + (mtl.length + 1) + post.length := by
      rw [hdec]
      simp only [List.length_append, List.length_cons]
      try omega
    have hdropIdx : subs.scenes.length - 1 - post.length + 1
        = (pre ++ (mhd :: mtl)).length := by
      simp only [List.length_append, List.length_cons, hlenS]
      omega
    have hdrop : List.drop (subs.scenes.length - 1 - post.length + 1) subs.scenes
        = post := by
      rw [hdropIdx, hdec]
      exact List.drop_left _ _
    constructor
    · unfold MergeScenes
      rw [if_neg (by rw [hempty]; simp)]
      simp only [hsort]
      rw [if_neg (not_not_intro (isSequential_seqFromList _ _))]
      simp only [hfilter]
      rw [if_neg (by simp [seqFromList_length])]
      simp only [hfi, hri, htake]
      rw [hdrop]
    · exact renumber_numbered _

/-- Witness for C4: merging scenes [1, 2] of a three-scene state (spec
scenario S5) succeeds with the batches of scene 2 appended to scene 1
and the remainder renumbered; an empty list and the non-sequential
[1, 3] are rejected. -/
theorem mergeScenes_contract_witness :
    (MergeScenes exThreeScenes []).isOk = false ∧
    (MergeScenes exThreeScenes [1, 3]).isOk = false ∧
    MergeScenes exThreeScenes [1, 2]
      = .ok (RenumberScenes ⟨[] ++
            [{ exSceneA with
                batches := exSceneA.batches ++ ([exSceneB].map (·.batches)).flatten }]
            ++ [exSceneC]⟩,
          { exSceneA with
              batches := exSceneA.batches ++ ([exSceneB].map (·.batches)).flatten }) := by
  obtain ⟨h1, h2, h3⟩ := mergeScenes_contract
  refine ⟨?_, ?_,
    (h3 exThreeScenes [1, 2] [] exSceneA [exSceneB] [exSceneC] (by decide) rfl (by decide)).1⟩
  · obtain ⟨msg, hm⟩ := h1 exThreeScenes
    rw [hm]
    rfl
  · obtain ⟨msg, hm⟩ := h2 exThreeScenes [1, 3] (by decide)
    rw [hm]
    rfl

/-- `SubtitleEditor.SplitScene`: looks up the scene and batch
(`Subtitles.GetScene` / `SubtitleScene.GetBatch` are not under src/;
modelled from the spec: lookup of the first scene or batch with the
given number, falsy when absent), moves the batches from the split
point into a new scene numbered one higher whose batches are
renumbered, inserts it right after the split scene and renumbers.  The
Python slice insertion runs after the found scene was truncated in
place, which the `set` at its first index models. -/
def SplitScene (subs : Subtitles) (scene_number batch_number : Int) :
    Except String Subtitles :=
  match subs.scenes.find? (fun sc => sc.number == scene_number) with
  | none => .error "Scene batch does not exist"
  | some scene =>
    match scene.batches.find? (fun b => b.number == batch_number) with
    | none => .error "Scene batch does not exist"
    | some _ =>
        let batch_index := scene.batches.findIdx (fun b => b.number == batch_number)
        let new_scene : SubtitleScene :=
          ⟨scene_number + 1,
            renumberBatchesFrom (scene_number + 1) 1 (scene.batches.drop batch_index)⟩
        let si := subs.scenes.findIdx (fun sc => sc.number == scene_number)
        let scenes' :=
          subs.scenes.set si { scene with batches := scene.batches.take batch_index }
        .ok (RenumberScenes ⟨scenes'.take (si + 1) ++ [new_scene] ++ scenes'.drop (si + 1)⟩)

/-- `SubtitleEditor.DeleteLines`: removes the lines with the given
numbers from every batch containing any of them
(`Subtitles.GetBatchesContainingLines` and `SubtitleBatch.DeleteLines`
are not under src/; modelled from the spec: drop the numbered lines
from the originals and translated of the batches holding them), and
raises when no line was deleted anywhere. -/
def DeleteLines (subs : Subtitles) (nums : List Int) : Except String Subtitles :=
  let anyDeleted := subs.scenes.any (fun sc => sc.batches.any (fun b =>
    b.originals.any (fun l => nums.contains l.number) ||
    b.translated.any (fun l => nums.contains l.number)))
  let scenes' := subs.scenes.map (fun sc =>
    { sc with batches := sc.batches.map (fun b =>
        { b with originals := b.originals.filter (fun l => !nums.contains l.number),
                 translated := b.translated.filter (fun l => !nums.contains l.number) }) })
  if anyDeleted then .ok ⟨scenes'⟩ else .error "No lines were deleted from any batches"

/-- Modelled from the spec: `SubtitleScene.MergeBatches` is not under
src/.  Merges several (sequential) batches of a scene into the first of
them, which takes over their original and translated lines in order;
the other merged batches are removed and the batch numbers of the scene
stay sequential afterwards (spec 4.2 and invariant 8.8). -/
def sceneMergeBatches (scene : SubtitleScene) (batch_numbers : List Int) :
    Except String SubtitleScene :=
  let sorted := List.insertionSort (· ≤ ·) batch_numbers
  if ¬ isSequential sorted then
    .error "Batch numbers to be merged are not sequential"
  else
    let selected := scene.batches.filter (fun b => sorted.contains b.number)
    if selected.length ≠ sorted.length then
      .error "Could not find batches"
    else
      match selected with
      | [] => .error "Could not find batches"
      | first :: rest =>
          let mergedBatch : SubtitleBatch :=
            { first with
                originals := first.originals ++ (rest.map (·.originals)).flatten,
                translated := first.translated ++ (rest.map (·.translated)).flatten }
          let bi := scene.batches.findIdx (fun b => sorted.contains b.number)
          let ei := scene.batches.length - 1
            - scene.batches.reverse.findIdx (fun b => sorted.contains b.number)
          let batches' :=
            scene.batches.take bi ++ [mergedBatch] ++ scene.batches.drop (ei + 1)
          .ok { scene with batches := renumberBatchesFrom scene.number 1 batches' }

/-- `SubtitleEditor.MergeBatches`: requires a non-empty list, finds the
scene by number (first match, like the Python generator expression) and
merges the batches within it in place. -/
def MergeBatches (subs : Subtitles) (scene_number : Int) (batch_numbers : List Int) :
    Except String Subtitles :=
  if batch_numbers.isEmpty then
    .error "No batch numbers supplied to MergeBatches"
  else
    match subs.scenes.find? (fun sc => sc.number == scene_number) with
    | none => .error "Scene not found"
    | some scene =>
        match sceneMergeBatches scene batch_numbers with
        | .error e => .error e
        | .ok sc' =>
            .ok ⟨subs.scenes.set
              (subs.scenes.findIdx (fun sc => sc.number == scene_number)) sc'⟩

lemma batchesNumbered_map_content {sn k : Int} {bs : List SubtitleBatch}
    {g : SubtitleBatch → SubtitleBatch}
    (hg : ∀ b, (g b).number = b.number ∧ (g b).scene = b.scene) :
    batchesNumbered sn k (bs.map g) = batchesNumbered sn k bs := by
  induction bs generalizing k with
  | nil => rfl
  | cons b rest ih =>
      simp only [List.map_cons, batchesNumbered, (hg b).1, (hg b).2, ih]

lemma scenesNumbered_map_content {k : Int} {scenes : List SubtitleScene}
    {f : SubtitleScene → SubtitleScene}
    (hf : ∀ sc, (f sc).number = sc.number ∧
      batchesNumbered sc.number 1 (f sc).batches
        = batchesNumbered sc.number 1 sc.batches) :
    scenesNumbered k (scenes.map f) = scenesNumbered k scenes := by
  induction scenes generalizing k with
  | nil => rfl
  | cons sc rest ih =>
      simp only [List.map_cons, scenesNumbered, (hf sc).1, (hf sc).2, ih]

lemma scenesNumbered_set_found {k : Int} {l : List SubtitleScene}
    {p : SubtitleScene → Bool} {x sc' : SubtitleScene}
    (h : scenesNumbered k l = true) (hfind : l.find? p = some x)
    (hnum : sc'.number = x.number)
    (hbat : batchesNumbered sc'.number 1 sc'.batches = true) :
    scenesNumbered k (l.set (l.findIdx p) sc') = true := by
  induction l generalizing k with
  | nil => simp [List.find?] at hfind
  | cons hd tl ih =>
      simp only [scenesNumbered, Bool.and_eq_true, beq_iff_eq] at h
      obtain ⟨⟨hn, hb⟩, hrest⟩ := h
      by_cases hp : p hd
      · rw [List.find?_cons_of_pos _ hp] at hfind
        injection hfind with hx
        subst hx
        have hidx : List.findIdx p (hd :: tl) = 0 := by
          simp [List.findIdx_cons, hp]
        rw [hidx, List.set_cons_zero]
        simp only [scenesNumbered, Bool.and_eq_true, beq_iff_eq]
        exact ⟨⟨by rw [hnum, hn], hbat⟩, hrest⟩
      · rw [List.find?_cons_of_neg _ hp] at hfind
        have hidx : List.findIdx p (hd :: tl) = List.findIdx p tl + 1 := by
          simp [List.findIdx_cons, hp]
        rw [hidx, List.set_cons_succ]
        simp only [scenesNumbered, Bool.and_eq_true, beq_iff_eq]
        exact ⟨⟨hn, hb⟩, ih hrest hfind⟩

lemma sceneMergeBatches_ok_shape {scene : SubtitleScene} {bns : List Int}
    {sc' : SubtitleScene} (h : sceneMergeBatches scene bns = .ok sc') :
    sc'.number = scene.number ∧
    ∃ bs, sc'.batches = renumberBatchesFrom scene.number 1 bs := by
  simp only [sceneMergeBatches] at h
  split at h
  · exact absurd h (by simp)
  · split at h
    · exact absurd h (by simp)
    · split at h
      · exact absurd h (by simp)
      · injection h with h2
        subst h2
        exact ⟨rfl, _, rfl⟩

/-- Counterexample to C3 as stated: `AddScene` merely appends the given
scene without renumbering (matching the editor unit test, which expects
the appended scene to keep its own number 99), so the sequential
numbering invariant does not survive `AddScene`. -/
theorem addScene_breaks_numbering :
    NumberedSequentially exThreeScenes ∧
    scenesNumbered 1 (AddScene exThreeScenes ⟨5, []⟩).scenes = false := ⟨by decide, by decide⟩

/-- C3 (amended): scene and batch numbers are sequential (scene at
index i has number i+1, batch at index j of it has number j+1 and
scene back-reference i+1) after every mutation that renumbers
(`RenumberScenes`, `MergeScenes`, `SplitScene`, `Sanitise`), and are
preserved by the mutations that leave the numbering fields untouched
(`DeleteLines`, `MergeBatches`); `AddScene` appends the given scene
verbatim and does not renumber, so the invariant can fail after it
(see the counterexample). -/
theorem editor_numbering_invariant :
    (∀ subs : Subtitles, NumberedSequentially (RenumberScenes subs)) ∧
    (∀ subs : Subtitles, NumberedSequentially subs →
      ∀ (i : Nat) (hi : i < subs.scenes.length),
        (subs.scenes.get ⟨i, hi⟩).number = (i : Int) + 1 ∧
        ∀ (j : Nat) (hj : j < (subs.scenes.get ⟨i, hi⟩).batches.length),
          ((subs.scenes.get ⟨i, hi⟩).batches.get ⟨j, hj⟩).number = (j : Int) + 1 ∧
          ((subs.scenes.get ⟨i, hi⟩).batches.get ⟨j, hj⟩).scene = (i : Int) + 1) ∧
    (∀ (subs : Subtitles) (nums : List Int) (out : Subtitles × SubtitleScene),
      MergeScenes subs nums = .ok out → NumberedSequentially out.1) ∧
    (∀ (subs : Subtitles) (sn bn : Int) (out : Subtitles),
      SplitScene subs sn bn = .ok out → NumberedSequentially out) ∧
    (∀ subs : Subtitles, NumberedSequentially (Sanitise subs)) ∧
    (∀ (subs : Subtitles) (nums : List Int) (out : Subtitles),
      DeleteLines subs nums = .ok out →
      NumberedSequentially subs → NumberedSequentially out) ∧
    (∀ (subs : Subtitles) (sn : Int) (bns : List Int) (out : Subtitles),
      MergeBatches subs sn bns = .ok out →
      NumberedSequentially subs → NumberedSequentially out) := by
  refine ⟨renumber_numbered, ?_, ?_, ?_, ?_, ?_, ?_⟩
  · intro subs h i hi
    have hs := scenesNumbered_get h i hi
    refine ⟨by rw [hs.1]; ring, ?_⟩
    intro j hj
    have hbj := batchesNumbered_get hs.2 j hj
    exact ⟨by rw [hbj.1]; ring, by rw [hbj.2, hs.1]; ring⟩
  · intro subs nums out h
    simp only [MergeScenes] at h
    split at h
    · exact absurd h (by simp)
    · split at h
      · exact absurd h (by simp)
      · split at h
        · exact absurd h (by simp)
        · split at h
          · exact absurd h (by simp)
          · injection h with h2
            subst h2
            exact renumber_numbered _
  · intro subs sn bn out h
    simp only [SplitScene] at h
    split at h
    · exact absurd h (by simp)
    · split at h
      · exact absurd h (by simp)
      · injection h with h2
        subst h2
        exact renumber_numbered _
  · intro subs
    exact renumber_numbered _
  · intro subs nums out h hpre
    simp only [DeleteLines] at h
    split at h
    · injection h with h2
      subst h2
      show scenesNumbered 1 _ = true
      rw [scenesNumbered_map_content]
      · exact hpre
      · intro sc
        refine ⟨rfl, ?_⟩
        rw [batchesNumbered_map_content]
        intro b
        exact ⟨rfl, rfl⟩
    · exact absurd h (by simp)
  · intro subs sn bns out h hpre
    simp only [MergeBatches] at h
    split at h
    · exact absurd h (by simp)
    · split at h
      · exact absurd h (by simp)
      · rename_i scene hfind
        split at h
        · exact absurd h (by simp)
        · rename_i sc' hmerge
          injection h with h2
          subst h2
          obtain ⟨hnum, bs, hbs⟩ := sceneMergeBatches_ok_shape hmerge
          show scenesNumbered 1 _ = true
          refine scenesNumbered_set_found hpre hfind hnum ?_
          rw [hbs, hnum]
          exact batchesNumbered_renumber _ _ _

/-- A single scene with two one-line batches. -/
def exTwoBatches : Subtitles :=
  ⟨[⟨1, [⟨1, 1, [⟨1, some 0, some 1000, "a", []⟩], []⟩,
         ⟨1, 2, [⟨2, some 2000, some 3000, "b", []⟩], []⟩]⟩]⟩

/-- Witness for C3 (amended): the invariant holds concretely after
renumbering an unnumbered state, after merging scenes 1 and 2, after
splitting scene 1 at batch 1, after sanitising an invalid state, after
deleting line 2, and after merging batches 1 and 2 of a scene. -/
theorem editor_numbering_invariant_witness :
    NumberedSequentially (RenumberScenes (AddScene exThreeScenes ⟨5, []⟩)) ∧
    (exThreeScenes.scenes.get ⟨1, by decide⟩).number = (1 : Int) + 1 ∧
    NumberedSequentially
      (RenumberScenes ⟨[] ++
          [{ exSceneA with
              batches := exSceneA.batches ++ ([exSceneB].map (·.batches)).flatten }]
          ++ [exSceneC]⟩) ∧
    NumberedSequentially
      (⟨[⟨1, []⟩,
         ⟨2, [⟨2, 1, [⟨1, some 0, some 1000, "a", []⟩], []⟩]⟩,
         ⟨3, [⟨3, 1, [⟨2, some 2000, some 3000, "b", []⟩], []⟩]⟩,
         ⟨4, [⟨4, 1, [⟨3, some 4000, some 5000, "c", []⟩], []⟩]⟩]⟩ : Subtitles) ∧
    NumberedSequentially (Sanitise exInvalidOnly) ∧
    NumberedSequentially
      (⟨[exSceneA, ⟨2, [⟨2, 1, [], []⟩]⟩, exSceneC]⟩ : Subtitles) ∧
    NumberedSequentially
      (⟨[⟨1, [⟨1, 1, [⟨1, some 0, some 1000, "a", []⟩,
                      ⟨2, some 2000, some 3000, "b", []⟩], []⟩]⟩]⟩ : Subtitles) := by
  obtain ⟨h1, h2, h3, h4, h5, h6, h7⟩ := editor_numbering_invariant
  refine ⟨h1 _, ?_, ?_, ?_, h5 exInvalidOnly, ?_, ?_⟩
  · exact (h2 exThreeScenes (by decide) 1 (by decide)).1
  · exact h3 exThreeScenes [1, 2] _ (by rfl)
  · exact h4 exThreeScenes 1 1 _ (by rfl)
  · exact h6 exThreeScenes [2] _ (by rfl) (by decide)
  · exact h7 exTwoBatches 1 [1, 2] _ (by rfl) (by decide)

/-! ## VttFileHandler (src/PySubtitle/Formats/VttFileHandler.py)

The WebVTT handler under src/, embedded at character level.  Its two
regexes are implemented as explicit matchers with the exact semantics
of `regex.match` / `regex.search` / `regex.sub` on these patterns:

  _TIMESTAMP_PATTERN =
    (\d{2,}):(\d{2}):(\d{2})\.(\d{3})\s*-->\s*(\d{2,}):(\d{2}):(\d{2})\.(\d{3})(.*)
  _VOICE_TAG_PATTERN = <v(?:\.[\w.]+)?\s+([^>]+)>
  _CLOSING_VOICE_TAG_PATTERN = </v>

Strings are handled per line after Python `splitlines`; the embedded
inputs use only `\n` line endings and ASCII whitespace, for which
`String.trim` matches Python `str.strip()`.
-/

deriving instance DecidableEq for Except

/-- Split a character list at every newline. -/
def splitLinesAux : List Char → List Char → List (List Char)
  | [], acc => [acc.reverse]
  | '\n' :: rest, acc => acc.reverse :: splitLinesAux rest []
  | c :: rest, acc => splitLinesAux rest (c :: acc)

/-- Python `str.splitlines()` for `\n`-separated text. -/
def pySplitlines (s : String) : List String :=
  if s.data.isEmpty then []
  else
    let parts := (splitLinesAux s.data []).map (fun l => (⟨l⟩ : String))
    if s.data.getLast? = some '\n' then parts.dropLast else parts

/-- Python `str.strip()` (ASCII whitespace). -/
def pyStrip (s : String) : String :=
  ⟨((s.data.dropWhile Char.isWhitespace).reverse.dropWhile Char.isWhitespace).reverse⟩

/-- Python `.lstrip('﻿')`. -/
def lstripBOM (s : String) : String := ⟨s.data.dropWhile (· = '﻿')⟩

/-- Digit run value. -/
def digitsToNat (ds : List Char) : Nat :=
  ds.foldl (fun acc c => 10 * acc + (c.toNat - 48)) 0

/-- One timestamp `(\d{2,}):(\d{2}):(\d{2})\.(\d{3})` anchored at the
head of the character list; the hour run must be at least two digits
and fully consumed (a colon has to follow), minutes and seconds exactly
two digits, and exactly three digit characters are taken for the
milliseconds group.  Returns the total milliseconds and the rest. -/
def matchTimePart (cs : List Char) : Option (Nat × List Char) :=
  let h := cs.takeWhile Char.isDigit
  if h.length < 2 then none
  else
    match cs.drop h.length with
    | ':' :: rest2 =>
        let m := rest2.takeWhile Char.isDigit
        if m.length ≠ 2 then none
        else
          match rest2.drop 2 with
          | ':' :: rest4 =>
              let sec := rest4.takeWhile Char.isDigit
              if sec.length ≠ 2 then none
              else
                match rest4.drop 2 with
                | '.' :: d1 :: d2 :: d3 :: rest7 =>
                    if d1.isDigit && d2.isDigit && d3.isDigit then
                      some (digitsToNat h * 3600000 + digitsToNat m * 60000
                        + digitsToNat sec * 1000 + digitsToNat [d1, d2, d3], rest7)
                    else none
                | _ => none
          | _ => none
    | _ => none

/-- `\s*-->\s*`. -/
def matchArrow (cs : List Char) : Option (List Char) :=
  match cs.dropWhile Char.isWhitespace with
  | '-' :: '-' :: '>' :: rest => some (rest.dropWhile Char.isWhitespace)
  | _ => none

/-- `_TIMESTAMP_PATTERN.match(line)`: both timestamps around the arrow;
gives the start and end in milliseconds and the trailing group 9
(the remainder of the line, holding any cue settings). -/
def matchTimestampLine (s : String) : Option (Nat × Nat × String) := do
  let (t1, r1) ← matchTimePart s.data
  let r2 ← matchArrow r1
  let (t2, r3) ← matchTimePart r2
  pure (t1, t2, ⟨r3⟩)

/-- Python regex `\w` on the ASCII range. -/
def isWordChar (c : Char) : Bool := c.isAlphanum || c = '_'

/-- `\s+([^>]+)>` anchored at the head: one or more whitespace (greedy,
giving back at most the final whitespace character to the group when
the group would otherwise be empty), then the longest non-empty run
without `>` as group 1 and a closing `>`. -/
def matchVoiceTail (cs : List Char) : Option (List Char × List Char) :=
  let ws := cs.takeWhile Char.isWhitespace
  if ws.length = 0 then none
  else
    let t := cs.drop ws.length
    let g := t.takeWhile (· ≠ '>')
    if g.length ≥ 1 then
      match t.drop g.length with
      | '>' :: rest => some (g, rest)
      | _ => none
    else
      match ws.getLast?, t with
      | some c, '>' :: rest => if 2 ≤ ws.length then some ([c], rest) else none
      | _, _ => none

/-- Backtracking over the greedy `[\w.]+` class run: try the longest
prefix first, then shorter ones down to length one. -/
def tryClassLens (cs2 : List Char) : Nat → Option (List Char × List Char)
  | 0 => none
  | k + 1 =>
      match matchVoiceTail (cs2.drop (k + 1)) with
      | some r => some r
      | none => tryClassLens cs2 k

/-- `(?:\.[\w.]+)?\s+([^>]+)>` after a leading `<v`: first with the
optional class group (greedy, backtracking), then without it. -/
def matchAfterV (cs : List Char) : Option (List Char × List Char) :=
  match cs with
  | '.' :: cs2 =>
      let runLen := (cs2.takeWhile (fun c => isWordChar c || c = '.')).length
      match tryClassLens cs2 runLen with
      | some r => some r
      | none => matchVoiceTail cs
  | _ => matchVoiceTail cs

/-- Leftmost match of `_VOICE_TAG_PATTERN` in the list: the prefix
before the match, the captured group 1 and the suffix after the match. -/
def findVoiceTagSplit : List Char → Option (List Char × List Char × List Char)
  | [] => none
  | c :: rest =>
      let here : Option (List Char × List Char) :=
        if c = '<' then
          match rest with
          | 'v' :: rest2 => matchAfterV rest2
          | _ => none
        else none
      match here with
      | some (g, suffix) => some ([], g, suffix)
      | none =>
          match findVoiceTagSplit rest with
          | some (pre, g, suf) => some (c :: pre, g, suf)
          | none => none

/-- `_VOICE_TAG_PATTERN.sub('', text)`: remove every match. -/
def subVoiceTagsAux : Nat → List Char → List Char
  | 0, cs => cs
  | fuel + 1, cs =>
      match findVoiceTagSplit cs with
      | none => cs
      | some (pre, _, suffix) => pre ++ subVoiceTagsAux fuel suffix

/-- `_CLOSING_VOICE_TAG_PATTERN.sub('', text)`: remove every `</v>`. -/
def removeClosingVoice : List Char → List Char
  | [] => []
  | '<' :: '/' :: 'v' :: '>' :: rest => removeClosingVoice rest
  | c :: rest => c :: removeClosingVoice rest

/-- `VttFileHandler._extract_speaker_name`: group 1 of the first voice
tag match, stripped (`None` when there is no match). -/
def extract_speaker_name (text : String) : Option String :=
  match findVoiceTagSplit text.data with
  | some (_, g, _) => some (pyStrip ⟨g⟩)
  | none => none

/-- `VttFileHandler._process_vtt_text`: strip voice tags and closing
voice tags, then strip whitespace. -/
def process_vtt_text (text : String) : String :=
  if text.data.isEmpty then ""
  else pyStrip ⟨removeClosingVoice (subVoiceTagsAux text.data.length text.data)⟩

def lookupMeta (m : List (String × MetaVal)) (k : String) : Option MetaVal :=
  (m.find? (fun e => e.1 == k)).map (·.2)

/-- `VttFileHandler._restore_vtt_text`: wrap the text in `<v speaker>`
and `</v>` when a truthy speaker is present in the metadata. -/
def restore_vtt_text (text : String) (metadata : List (String × MetaVal)) : String :=
  if text.data.isEmpty then ""
  else
    match lookupMeta metadata "speaker" with
    | some (.s sp) => if sp ≠ "" then "<v " ++ sp ++ ">" ++ text ++ "</v>" else text
    | _ => text

/-- `_STYLE_BLOCK_START` = `^\s*STYLE\s*$`. -/
def isStyleStart (line : String) : Bool := pyStrip line == "STYLE"

/-- `_NOTE_BLOCK_START` = `^\s*NOTE\s` (note the required whitespace
character after NOTE). -/
def isNoteStart (line : String) : Bool :=
  match line.data.dropWhile Char.isWhitespace with
  | 'N' :: 'O' :: 'T' :: 'E' :: c :: _ => c.isWhitespace
  | _ => false

/-- `VttFileHandler._parse_style_block`: collect raw lines until a
blank line or the start of another block; `None` when nothing was
collected. -/
def parseStyleBlockAux (lines : List String) : Nat → Nat → List String →
    (Option String × Nat)
  | 0, i, acc =>
      ((if acc.isEmpty then none else some (String.intercalate "\n" acc)), i)
  | fuel + 1, i, acc =>
      match lines[i]? with
      | none =>
          ((if acc.isEmpty then none else some (String.intercalate "\n" acc)), i)
      | some l =>
          let str := pyStrip l
          if str = "" || isStyleStart str || isNoteStart str then
            ((if acc.isEmpty then none else some (String.intercalate "\n" acc)), i)
          else
            parseStyleBlockAux lines fuel (i + 1) (acc ++ [l])

def parse_style_block (lines : List String) (startIdx : Nat) : Option String × Nat :=
  parseStyleBlockAux lines (lines.length + 1) startIdx []

/-- `VttFileHandler._skip_note_block`: advance past non-blank lines and
return the next index; the note content is discarded. -/
def skipNoteBlockAux (lines : List String) : Nat → Nat → Nat
  | 0, i => i
  | fuel + 1, i =>
      match lines[i]? with
      | none => i
      | some l => if pyStrip l = "" then i else skipNoteBlockAux lines fuel (i + 1)

def skip_note_block (lines : List String) (startIdx : Nat) : Nat :=
  skipNoteBlockAux lines (lines.length + 1) startIdx

/-- The `while i < len(lines) and lines[i].strip()` cue-text collector:
raw lines gathered, with the index after them. -/
def collectCueTextAux (lines : List String) : Nat → Nat → List String →
    (List String × Nat)
  | 0, i, acc => (acc, i)
  | fuel + 1, i, acc =>
      match lines[i]? with
      | none => (acc, i)
      | some l =>
          if pyStrip l = "" then (acc, i)
          else collectCueTextAux lines fuel (i + 1) (acc ++ [l])

def collectCueText (lines : List String) (startIdx : Nat) : List String × Nat :=
  collectCueTextAux lines (lines.length + 1) startIdx []

/-- The result type of a file handler parse (`SubtitleData`). -/
structure SubtitleData where
  lines : List SubtitleLine
  metadata : List (String × MetaVal)
  detected_format : String
  deriving DecidableEq, Repr

/-- The main `while` loop of `VttFileHandler.parse_string`, with fuel
(every iteration advances the index, so `lines.length + 1` iterations
always finish the walk). -/
def vttParseLoop (lines : List String) : Nat → Nat → Nat → List SubtitleLine →
    List String → (List SubtitleLine × List String)
  | 0, _, _, acc, styles => (acc, styles)
  | fuel + 1, i, lineNumber, acc, styles =>
      match lines[i]? with
      | none => (acc, styles)
      | some rawLine =>
          let line := pyStrip rawLine
          if line = "" then
            vttParseLoop lines fuel (i + 1) lineNumber acc styles
          else if isStyleStart line then
            match parse_style_block lines (i + 1) with
            | (some sb, i2) => vttParseLoop lines fuel i2 lineNumber acc (styles ++ [sb])
            | (none, i2) => vttParseLoop lines fuel i2 lineNumber acc styles
          else if isNoteStart line then
            vttParseLoop lines fuel (skip_note_block lines (i + 1)) lineNumber acc styles
          else
            let idPair : Option String × Nat :=
              match lines[i + 1]? with
              | some nl =>
                  if (matchTimestampLine (pyStrip nl)).isSome then (some line, i + 1)
                  else (none, i)
              | none => (none, i)
            match lines[idPair.2]? with
            | some tsLine =>
                match matchTimestampLine (pyStrip tsLine) with
                | some (startMs, endMs, settingsRaw) =>
                    let collected := collectCueText lines (idPair.2 + 1)
                    let cueText := String.intercalate "\n" collected.1
                    let speakerName :=
                      match extract_speaker_name cueText with
                      | some sp => sp
                      | none => ""
                    let processed := process_vtt_text cueText
                    let settings := if pyStrip settingsRaw = "" then "" else pyStrip settingsRaw
                    let md : List (String × MetaVal) :=
                      (match idPair.1 with
                       | some cid => [("cue_id", MetaVal.s cid)]
                       | none => [])
                      ++ (if settings ≠ "" then [("vtt_settings", MetaVal.s settings)] else [])
                      ++ (if speakerName ≠ "" then [("speaker", MetaVal.s speakerName)] else [])
                    vttParseLoop lines fuel collected.2 (lineNumber + 1)
                      (acc ++ [⟨lineNumber, some startMs, some endMs, processed, md⟩]) styles
                | none => vttParseLoop lines fuel (i + 1) lineNumber acc styles
            | none => vttParseLoop lines fuel (i + 1) lineNumber acc styles

/-- `VttFileHandler.parse_string`. -/
def vtt_parse_string (content : String) : Except String SubtitleData :=
  let lines := pySplitlines content
  match lines with
  | [] => .error "Invalid WebVTT file: missing WEBVTT header"
  | first :: _ =>
      if ¬ "WEBVTT".data.isPrefixOf (lstripBOM (pyStrip first)).data then
        .error "Invalid WebVTT file: missing WEBVTT header"
      else
        let result := vttParseLoop lines (lines.length + 1) 1 1 [] []
        .ok ⟨result.1,
          [("vtt_styles", MetaVal.l result.2), ("header_text", MetaVal.s (pyStrip first))],
          ".vtt"⟩

def pad2 (n : Nat) : String := if n < 10 then "0" ++ toString n else toString n

def pad3 (n : Nat) : String :=
  if n < 10 then "00" ++ toString n else if n < 100 then "0" ++ toString n else toString n

/-- `VttFileHandler._format_timestamp`. -/
def format_timestamp (ms : Nat) : String :=
  let total_seconds := ms / 1000
  let hours := total_seconds / 3600
  let minutes := total_seconds % 3600 / 60
  let seconds := total_seconds % 60
  pad2 hours ++ ":" ++ pad2 minutes ++ ":" ++ pad2 seconds ++ "." ++ pad3 (ms % 1000)

/-- `VttFileHandler.compose`: header, STYLE blocks, then the cues (the
handler writes no NOTE blocks). -/
def vtt_compose (data : SubtitleData) : String :=
  let header := match lookupMeta data.metadata "header_text" with
    | some (.s h) => h
    | _ => "WEBVTT"
  let styles := match lookupMeta data.metadata "vtt_styles" with
    | some (.l l) => l
    | _ => []
  let styleLines := styles.flatMap (fun sb => ["STYLE", sb, ""])
  let cueLines := data.lines.flatMap (fun l =>
    match l.start, l.endTime with
    | some s, some e =>
        if l.text ≠ "" then
          (match lookupMeta l.metadata "cue_id" with
           | some (.s cid) => [cid]
           | _ => [])
          ++ [format_timestamp s ++ " --> " ++ format_timestamp e
              ++ (match lookupMeta l.metadata "vtt_settings" with
                  | some (.s st) => " " ++ st
                  | _ => "")]
          ++ [restore_vtt_text l.text l.metadata]
          ++ [""]
        else []
    | _, _ => [])
  String.intercalate "\n" ([header, ""] ++ styleLines ++ cueLines)

/-- Non-overlapping occurrence count of a pattern in a string,
scanning left to right. -/
def countOccurAux (pat : List Char) : Nat → List Char → Nat
  | 0, _ => 0
  | _, [] => 0
  | fuel + 1, c :: rest =>
      if pat.isPrefixOf (c :: rest) then
        1 + countOccurAux pat fuel ((c :: rest).drop pat.length)
      else
        countOccurAux pat fuel rest

def countOccur (s pat : String) : Nat :=
  countOccurAux pat.data s.data.length s.data

/-- The S2 scenario input: one cue with a hyphenated voice class. -/
def vttVoiceCueInput : String :=
  "WEBVTT\n\n00:00:01.000 --> 00:00:02.000\n<v.first-second Mary>Hyphenated class text</v>\n"

/-- C2 (behaviour of the code at the claimed input): the voice-tag
pattern `<v(?:\.[\w.]+)?\s+([^>]+)>` cannot match `<v.first-second`
because `\w` excludes the hyphen, so `parse_string` extracts no
speaker, stores no metadata at all (the handler has no voice_classes
key anywhere), leaves the opening tag inside the text, and the
composed output contains no `</v>` — against the claim (and against
the repository unit tests, which expect speaker "Mary" and
voice_classes ["first-second"]).  The third conjunct shows the same
pattern succeeding without the hyphen, isolating the failure. -/
theorem vtt_voice_tag_hyphen_dropped :
    vtt_parse_string vttVoiceCueInput
      = .ok ⟨[⟨1, some 1000, some 2000, "<v.first-second Mary>Hyphenated class text", []⟩],
        [("vtt_styles", MetaVal.l []), ("header_text", MetaVal.s "WEBVTT")], ".vtt"⟩ ∧
    extract_speaker_name "<v.first-second Mary>Hyphenated class text</v>" = none ∧
    extract_speaker_name "<v Mary>No way!</v>" = some "Mary" ∧
    (vtt_parse_string vttVoiceCueInput).map (fun d => countOccur (vtt_compose d) "</v>")
      = .ok 0 := by
  refine ⟨by decide, by decide, by decide, by decide⟩

/-- A WebVTT input with one STYLE block and one NOTE block. -/
def vttStyleNoteInput : String :=
  "WEBVTT\n\nSTYLE\n::cue { color: red }\n\nNOTE This is a note\n\n00:00:01.000 --> 00:00:02.000\nHello\n"

/-- C5 (behaviour of the code at the claimed input): STYLE blocks are
preserved in `vtt_styles`, but `parse_string` discards NOTE blocks via
`_skip_note_block` — the file metadata carries no `vtt_notes` key and
the note text survives neither parsing nor composition, against the
claim (and against the repository test expecting `vtt_notes`). -/
theorem vtt_note_blocks_not_preserved :
    vtt_parse_string vttStyleNoteInput
      = .ok ⟨[⟨1, some 1000, some 2000, "Hello", []⟩],
        [("vtt_styles", MetaVal.l ["::cue { color: red }"]),
         ("header_text", MetaVal.s "WEBVTT")], ".vtt"⟩ ∧
    (vtt_parse_string vttStyleNoteInput).map (fun d => lookupMeta d.metadata "vtt_notes")
      = .ok none ∧
    (vtt_parse_string vttStyleNoteInput).map
        (fun d => countOccur (vtt_compose d) "This is a note")
      = .ok 0 := by
  refine ⟨by decide, by decide, by decide⟩

/-- A cue whose timestamps omit the hours component. -/
def vttNoHourInput : String := "WEBVTT\n\n00:01.500 --> 00:03.000\nNo hour field\n"

/-- A cue with three-digit hours. -/
def vttBigHoursInput : String :=
  "WEBVTT\n\n100:00:01.000 --> 100:00:02.000\nBig hours\n"

/-- C6 (behaviour of the code at the claimed input): the timestamp
regex requires three colon-separated fields, so a `MM:SS.mmm` line
matches nothing and the cue is skipped entirely (zero lines parsed),
against the claim (and against the repository test expecting the cue
accepted at 1.5 s); hours with more than two digits are accepted, as
the claim also states. -/
theorem vtt_no_hours_timestamp_rejected :
    vtt_parse_string vttNoHourInput
      = .ok ⟨[], [("vtt_styles", MetaVal.l []), ("header_text", MetaVal.s "WEBVTT")],
        ".vtt"⟩ ∧
    matchTimestampLine "00:01.500 --> 00:03.000" = none ∧
    vtt_parse_string vttBigHoursInput
      = .ok ⟨[⟨1, some 360001000, some 360002000, "Big hours", []⟩],
        [("vtt_styles", MetaVal.l []), ("header_text", MetaVal.s "WEBVTT")], ".vtt"⟩ := by
  refine ⟨by decide, by decide, by decide⟩

end LlmSubtrans
